import Mathlib

/-!
Verification of the XRSP host protocol engine of the quest_link driver
(file ql_xrsp.cpp together with the driver header that declares
`ql_xrsp_host`).  The definitions below are a shallow embedding of the
relevant C++ functions; machine integers are modelled as `Nat` or `Int`
with the exact guards of the source, byte buffers as `List Nat`, and the
stateful functions as explicit state-passing functions.  Each claim of the
specification is settled by one theorem near the end of the file.
-/

set_option linter.unusedVariables false

namespace XRSP

/-! ### Handshake state machine (xrsp_handle_hostinfo_adv) -/

/-- Pairing states PAIRINGSTATE_WAIT_FIRST .. PAIRINGSTATE_PAIRED. -/
inductive PairingState
  | waitFirst
  | waitSecond
  | pairing
  | paired
deriving DecidableEq, Repr, Fintype

/-- Handshake message types carried on TOPIC_HOSTINFO_ADV.  The code
compares the wire byte against the BUILTIN constants; `other` stands for
any wire value that matches none of the compared constants (BUILTIN_OK,
BUILTIN_CODE_GENERATION, BUILTIN_PAIRING, unknown bytes, and so on). -/
inductive MsgType
  | invite
  | ack
  | codeGenerationAck
  | pairingAck
  | echo
  | bye
  | other
deriving DecidableEq, Repr, Fintype

/-- The pairing-state component of `xrsp_handle_hostinfo_adv`
(ql_xrsp.cpp lines 2539-2597): BUILTIN_ECHO is dispatched to
`xrsp_handle_echo` and the function returns; otherwise the two state
blocks run.  None of the helper sends (`xrsp_init_session`,
`xrsp_send_codegen_1`, ...) touches `pairing_state`, so the state update
is exactly this function. -/
def xrsp_handle_hostinfo_adv_state (s : PairingState) (m : MsgType) : PairingState :=
  if m = .echo then s
  else if s = .waitFirst then
    if m = .pairingAck then .waitSecond else s
  else if s = .waitSecond ∨ s = .pairing then
    if m = .invite then .pairing
    else if m = .pairingAck then .paired
    else s
  else s

/-- Forward order of the handshake: WAIT_FIRST before WAIT_SECOND before
PAIRING before PAIRED. -/
def PairingState.rank : PairingState → Nat
  | .waitFirst => 0
  | .waitSecond => 1
  | .pairing => 2
  | .paired => 3

/-! ### Video slot CSD/IDR accumulators (xrsp_send_csd / xrsp_send_idr) -/

/-- Upper bound 0x1000000 tested by `xrsp_send_csd` and `xrsp_send_idr`. -/
def STREAM_LEN_CAP : Nat := 0x1000000

/-- One video slot: the two byte buffers.  The length counters
`csd_stream_len` and `idr_stream_len` of the source are the lengths of
the valid prefixes, modelled here as the list lengths. -/
structure VidSlot where
  csd : List Nat
  idr : List Nat
deriving DecidableEq, Repr

/-- Body of `xrsp_send_csd` (ql_xrsp.cpp lines 1887-1907) after taking the
slot lock: append only when the new length stays below 0x1000000. -/
def xrsp_send_csd (slot : VidSlot) (data : List Nat) : VidSlot :=
  if slot.csd.length + data.length < STREAM_LEN_CAP then
    { slot with csd := slot.csd ++ data }
  else slot

/-- Body of `xrsp_send_idr` (ql_xrsp.cpp lines 1909-1926), same guard on
the IDR buffer. -/
def xrsp_send_idr (slot : VidSlot) (data : List Nat) : VidSlot :=
  if slot.idr.length + data.length < STREAM_LEN_CAP then
    { slot with idr := slot.idr ++ data }
  else slot

/-- An encoder call into one slot: either a CSD append or an IDR append. -/
inductive SlotOp
  | csd (data : List Nat)
  | idr (data : List Nat)

/-- A sequence of encoder calls applied to one slot. -/
def runSlotOps (slot : VidSlot) (ops : List SlotOp) : VidSlot :=
  ops.foldl (fun s op =>
    match op with
    | .csd d => xrsp_send_csd s d
    | .idr d => xrsp_send_idr s d) slot

/-! ### Topic framer, outbound (xrsp_send_to_topic_raw, xrsp_send_to_topic) -/

/-- Per-frame payload upper bound used by the chunk loop of
`xrsp_send_to_topic`. -/
def XRSP_CHUNK_MAX : Nat := 0x3FFF8

/-- One emitted topic frame.  The 8-byte header is represented by its
fields; `payload` is everything after the header (data plus alignment
padding for a data frame, zero fill for a filler frame). -/
structure TopicFrame where
  hasAlignmentPadding : Bool
  topic : Nat
  numWords : Nat
  payload : List Nat
deriving DecidableEq, Repr

/-- Total wire size of a frame: 8 header bytes plus the payload. -/
def TopicFrame.byteLen (f : TopicFrame) : Nat := 8 + f.payload.length

/-- Total wire size of a frame sequence. -/
def framesLen (fs : List TopicFrame) : Nat := (fs.map TopicFrame.byteLen).sum

/-- First computation of align_up_bytes in `xrsp_send_to_topic_raw`:
the C expression (((4+n) >> 2) << 2) - n, then 4 is replaced by 0. -/
def alignUp0 (n : Nat) : Nat :=
  let a := ((4 + n) / 4) * 4 - n
  if a = 4 then 0 else a

/-- align_up_bytes after the extra-pad adjustment: when the frame would
end within the last 8 bytes before a 1024-byte boundary
(to_fill_check in [0, 8)), the gap is folded into the padding.  The C
to_fill_check is 0x400 - ((msg_size + 0x400) & 0x3FF), which for
nonnegative msg_size is 0x400 - msg_size % 0x400, always at least 1, so
the `>= 0` half of the C condition holds automatically. -/
def alignUpAdj (n : Nat) : Nat :=
  let a := alignUp0 n
  let msgSize := n + a + 8
  let toFillCheck := 0x400 - msgSize % 0x400
  if toFillCheck < 8 then a + toFillCheck else a

/-- The data frame built by `xrsp_send_to_topic_raw` (ql_xrsp.cpp lines
2009-2059): header flag, num_words = ((n + align) >> 2) + 1, payload =
data, then 0xDE padding bytes, then the pad length as the final byte. -/
def rawDataFrame (topic : Nat) (data : List Nat) : TopicFrame :=
  let n := data.length
  let a := alignUpAdj n
  { hasAlignmentPadding := a != 0
    topic := topic
    numWords := (n + a) / 4 + 1
    payload := data ++ (if a = 0 then [] else List.replicate (a - 1) 0xDE ++ [a]) }

/-- Output of one `xrsp_send_to_topic_raw` call (ql_xrsp.cpp lines
2009-2086): the data frame and, when
to_fill = 0x400 - msg_size % 0x400 - 8 satisfies 0 <= to_fill < 0x3F8,
one topic-0 filler frame whose payload is to_fill zero bytes. -/
def xrsp_send_to_topic_raw (topic : Nat) (data : List Nat) : List TopicFrame :=
  let n := data.length
  let a := alignUpAdj n
  let msgSize := n + a + 8
  let toFill : Int := 0x400 - (msgSize : Int) % 0x400 - 8
  let f := rawDataFrame topic data
  if 0 ≤ toFill ∧ toFill < 0x3F8 then
    [f, { hasAlignmentPadding := false
          topic := 0
          numWords := toFill.toNat / 4 + 1
          payload := List.replicate toFill.toNat 0 }]
  else [f]

/-- Distance from a buffer of `m` bytes to the next 1024-byte boundary
(0 when the buffer already ends on a boundary). -/
def gapToBoundary (m : Nat) : Nat :=
  if m % 1024 = 0 then 0 else 1024 - m % 1024

/-- Chunk loop of `xrsp_send_to_topic` (ql_xrsp.cpp lines 1992-2005):
each round takes amt = min remaining 0x3FFF8 bytes.  The fuel argument
only bounds the recursion; fuel = data.length always suffices because
every round consumes at least one byte. -/
def chunkLoop (fuel : Nat) (data : List Nat) : List (List Nat) :=
  match fuel, data with
  | 0, _ => []
  | _, [] => []
  | fuel + 1, data =>
    let amt := min data.length XRSP_CHUNK_MAX
    data.take amt :: chunkLoop fuel (data.drop amt)

/-- Chunk sizes alone, same recursion on the byte count. -/
def chunkSizes (fuel n : Nat) : List Nat :=
  match fuel, n with
  | 0, _ => []
  | _, 0 => []
  | fuel + 1, n + 1 =>
    let amt := min (n + 1) XRSP_CHUNK_MAX
    amt :: chunkSizes fuel (n + 1 - amt)

/-- Observable events of `xrsp_send_to_topic`: mutex operations on
usb_mutex and emitted frames. -/
inductive SendEvent
  | lock
  | unlock
  | frame (f : TopicFrame)
deriving DecidableEq, Repr

/-- `xrsp_send_to_topic` (ql_xrsp.cpp lines 1982-2007) as its event
trace: it locks usb_mutex first, then returns early - without
unlocking - when the host pointer is null or data_size <= 0 (the null
check is modelled by the caller passing an empty trace source; the
data_size <= 0 early return is the `data.length = 0` branch); otherwise
it emits every chunk through `xrsp_send_to_topic_raw` and unlocks. -/
def xrsp_send_to_topic (topic : Nat) (data : List Nat) : List SendEvent :=
  SendEvent.lock ::
    (if data.length = 0 then []
     else
       ((chunkLoop data.length data).map
           (fun c => (xrsp_send_to_topic_raw topic c).map SendEvent.frame)).flatten
         ++ [SendEvent.unlock])

/-! ### Echo / clock synchronisation (xrsp_handle_echo, PONG branch) -/

/-- Echo state of the host relevant to the PONG handler. -/
structure EchoState where
  ns_offset : Int
  echo_req_sent_ns : Int
  echo_req_recv_ns : Int
  echo_resp_sent_ns : Int
  echo_resp_recv_ns : Int
deriving DecidableEq, Repr

/-- PONG branch of `xrsp_handle_echo` (ql_xrsp.cpp lines 2385-2416).
Parameters `org` and `offset` are the corresponding payload fields; the
code never reads either of them on this branch.  `pktRecvNs` is
pkt recv_ns (the clock read stored when the packet arrived) and `nowNs`
is the fresh `xrsp_ts_ns` read taken inside the handler and stored into
echo_req_sent_ns before the offset is computed.  The C `>> 1` on int64 is
an arithmetic shift, hence `Int.fdiv _ 2`; the C `/= 2` truncates toward
zero, hence `Int.div _ 2`. -/
def xrsp_handle_echo_pong (st : EchoState) (org recv xmt offset pktRecvNs nowNs : Int) :
    EchoState :=
  let st1 : EchoState :=
    { st with
      echo_req_recv_ns := recv
      echo_resp_sent_ns := xmt
      echo_resp_recv_ns := pktRecvNs
      echo_req_sent_ns := nowNs }
  let calcNsOffset : Int :=
    Int.fdiv ((st1.echo_req_recv_ns - st1.echo_req_sent_ns)
      + (st1.echo_resp_sent_ns - pktRecvNs)) 2
  if st1.ns_offset = 0 then { st1 with ns_offset := calcNsOffset }
  else { st1 with ns_offset := Int.tdiv (st1.ns_offset + calcNsOffset) 2 }

/-- The value the specification formula prescribes for the new offset
sample: ((recv - org) + (xmt - t_recv)) / 2. -/
def specNsOffsetSample (org recv xmt tRecv : Int) : Int :=
  ((recv - org) + (xmt - tRecv)) / 2

/-! ### Video frame emission gate (xrsp_send_video) and writer re-arm -/

/-- Host state relevant to the keyframe-first rule. -/
structure VidHost where
  pairing_state : PairingState
  ready_to_send_frames : Bool
  sent_first_frame : Bool
deriving DecidableEq, Repr

/-- One slice message as emitted on a SLICE topic: the CSD byte count and
the video byte count it carries. -/
structure SliceEmit where
  csdLen : Nat
  vidLen : Nat
deriving DecidableEq, Repr

/-- Emission decision of `xrsp_send_video` (ql_xrsp.cpp lines 2876-3062):
pause unless paired and armed; otherwise suppress the frame when it has
no CSD and no first frame has been sent yet; on an actual send set
sent_first_frame.  The returned list holds the emitted slice message. -/
def xrsp_send_video (st : VidHost) (csdLen vidLen : Nat) : VidHost × List SliceEmit :=
  if ¬(st.pairing_state = .paired ∧ st.ready_to_send_frames = true) then (st, [])
  else if csdLen = 0 ∧ st.sent_first_frame = false then (st, [])
  else ({ st with sent_first_frame := true }, [⟨csdLen, vidLen⟩])

/-- A sequence of `xrsp_send_video` invocations; the second component
collects every emitted slice message in order. -/
def runSendVideo (st : VidHost) : List (Nat × Nat) → VidHost × List SliceEmit
  | [] => (st, [])
  | c :: rest =>
    let out := xrsp_send_video st c.1 c.2
    let out2 := runSendVideo out.1 rest
    (out2.1, out.2 ++ out2.2)

/-- The writer-thread re-arm block (ql_xrsp.cpp lines 3162-3173): one
second after entering PAIRED it arms the pipeline and clears
sent_first_frame. -/
def rearmPipeline (st : VidHost) : VidHost :=
  { st with ready_to_send_frames := true, sent_first_frame := false }

/-! ### USB failure policy (xrsp_send_usb) and reset path (ql_xrsp_usb_init) -/

/-- libusb error codes used by the failure policy. -/
def LIBUSB_ERROR_NO_DEVICE : Int := -4

def LIBUSB_ERROR_NOT_FOUND : Int := -5

def LIBUSB_ERROR_TIMEOUT : Int := -7

/-- Host state relevant to `xrsp_send_usb`; `rest` stands for every other
host field, which the function must not touch. -/
structure UsbHost (α : Type) where
  usb_valid : Bool
  pairing_state : PairingState
  rest : α
deriving DecidableEq, Repr

/-- `xrsp_send_usb` (ql_xrsp.cpp lines 1928-1949) given the result `r`
and transferred byte count `sentLen` of the bulk transfer: on NO_DEVICE
or TIMEOUT it invalidates the transport and forces WAIT_FIRST. -/
def xrsp_send_usb {α : Type} (st : UsbHost α) (r : Int) (sentLen : Nat) : UsbHost α :=
  if st.usb_valid = false then st
  else if r ≠ 0 ∨ sentLen = 0 then
    if r = LIBUSB_ERROR_NO_DEVICE ∨ r = LIBUSB_ERROR_TIMEOUT then
      { st with usb_valid := false, pairing_state := .waitFirst }
    else st
  else st

/-- Observable operations of the reset path of `ql_xrsp_usb_init`. -/
inductive UsbOp
  | reset
  | close
  | openAttempt
  | sleep500ms
deriving DecidableEq, Repr

/-- The reopen loop of `ql_xrsp_usb_init` (ql_xrsp.cpp lines 1707-1714):
up to `fuel` = 10 open attempts; a successful attempt breaks out, a
failed one is followed by a 500 ms sleep. `openOk i` tells whether the
i-th attempt succeeds. -/
def openRetryLoop (openOk : Nat → Bool) (i : Nat) : Nat → List UsbOp × Bool
  | 0 => ([], false)
  | fuel + 1 =>
    if openOk i then ([.openAttempt], true)
    else
      let out := openRetryLoop openOk (i + 1) fuel
      (.openAttempt :: .sleep500ms :: out.1, out.2)

/-- The do_reset section of `ql_xrsp_usb_init` (ql_xrsp.cpp lines
1686-1721) as an operation trace plus success flag, driven by the result
of libusb_reset_device and an oracle for the open attempts: NOT_FOUND
skips the close and proceeds to reopen; any other failure aborts; on
success the handle is closed after the reset and the loop runs. -/
def ql_xrsp_usb_reset_path (resetRes : Int) (openOk : Nat → Bool) : List UsbOp × Bool :=
  if resetRes = LIBUSB_ERROR_NOT_FOUND then
    let out := openRetryLoop openOk 0 10
    (.reset :: out.1, out.2)
  else if resetRes ≠ 0 then ([.reset], false)
  else
    let out := openRetryLoop openOk 0 10
    (.reset :: .close :: out.1, out.2)

/-! ### Writer frame selection and pipeline FIFO (ql_xrsp_write_thread) -/

/-- QL_SWAPCHAIN_DEPTH from the driver header. -/
def QL_SWAPCHAIN_DEPTH : Nat := 3

/-- QL_NUM_SLICES from the driver header. -/
def QL_NUM_SLICES : Nat := 1

/-- QL_IDX_SLICE(slice, index) = slice * QL_SWAPCHAIN_DEPTH + index. -/
def QL_IDX_SLICE (sliceIdx frameIdx : Nat) : Nat :=
  sliceIdx * QL_SWAPCHAIN_DEPTH + frameIdx

/-- INT64_MAX, the initial value of present_ns in the writer scan. -/
def INT64_MAX : Int := 0x7FFFFFFFFFFFFFFF

/-- Pipeline state seen by the writer: the per-slot needs_flush flags and
stream_started_ns stamps. -/
structure PipeState where
  needsFlush : Nat → Bool
  streamStartedNs : Nat → Int

/-- Inner slice loop of the writer scan (ql_xrsp.cpp lines 3112-3122):
an index is ready when every slice slot of it has needs_flush set. -/
def allSlicesPresent (st : PipeState) (i : Nat) : Bool :=
  (List.range QL_NUM_SLICES).all fun j => st.needsFlush (QL_IDX_SLICE j i)

/-- Writer scan over the swapchain indices (ql_xrsp.cpp lines 3108-3132):
fold carrying (present_ns, to_present), starting from (INT64_MAX, none);
a ready index with a slot-0 stamp strictly below the carried minimum
replaces it. -/
def writerScan (st : PipeState) : Int × Option Nat :=
  (List.range QL_SWAPCHAIN_DEPTH).foldl
    (fun acc i =>
      if allSlicesPresent st i = true ∧ st.streamStartedNs (QL_IDX_SLICE 0 i) < acc.1
      then (st.streamStartedNs (QL_IDX_SLICE 0 i), some i)
      else acc)
    (INT64_MAX, none)

/-- Emission block of the writer (ql_xrsp.cpp lines 3135-3157): when an
index was selected, clear needs_flush on each of its slice slots; the
returned value is the emitted present_ns stamp. -/
def writerWake (st : PipeState) : PipeState × Option Int :=
  match writerScan st with
  | (_, none) => (st, none)
  | (presentNs, some i) =>
    ({ st with
        needsFlush := (List.range QL_NUM_SLICES).foldl
          (fun f j k => if k = QL_IDX_SLICE j i then false else f k) st.needsFlush },
      some presentNs)

/-- A completed encode of index `i`: `xrsp_flush_stream` (ql_xrsp.cpp
lines 1833-1865) stamps stream_started_ns with the target time and sets
needs_flush on each slice slot of the index. -/
def completeEncode (st : PipeState) (i : Nat) (ts : Int) : PipeState :=
  { needsFlush := (List.range QL_NUM_SLICES).foldl
      (fun f j k => if k = QL_IDX_SLICE j i then true else f k) st.needsFlush
    streamStartedNs := (List.range QL_NUM_SLICES).foldl
      (fun f j k => if k = QL_IDX_SLICE j i then ts else f k) st.streamStartedNs }

/-- Interleaving of encoder completions and writer wakeups. -/
inductive PipeEv
  | complete (i : Nat) (ts : Int)
  | wakeup

/-- Run an event interleaving; the second component is the sequence of
emitted stream_started_ns stamps, in emission order. -/
def pipeRun (st : PipeState) : List PipeEv → PipeState × List Int
  | [] => (st, [])
  | .complete i ts :: rest => pipeRun (completeEncode st i ts) rest
  | .wakeup :: rest =>
    match writerWake st with
    | (st1, none) => pipeRun st1 rest
    | (st1, some ns) =>
      let out := pipeRun st1 rest
      (out.1, ns :: out.2)

/-- The pipeline state after `ql_xrsp_reset_pipeline`: no slot needs a
flush and every stamp is zero. -/
def initPipeState : PipeState :=
  { needsFlush := fun _ => false, streamStartedNs := fun _ => 0 }

/-- Well-formed event list for the FIFO property: completion stamps are
strictly increasing along the trace (and stay above the starting bound),
completions target real indices, and stamps stay below INT64_MAX
(a stamp equal to INT64_MAX could never win the strict comparison of the
scan). -/
def evsOk (b : Int) : List PipeEv → Prop
  | [] => True
  | .wakeup :: rest => evsOk b rest
  | .complete i ts :: rest =>
    b < ts ∧ i < QL_SWAPCHAIN_DEPTH ∧ ts < INT64_MAX ∧ evsOk ts rest

/-! ## Helper lemmas -/

theorem xrsp_send_csd_keeps_idr (slot : VidSlot) (d : List Nat) :
    (xrsp_send_csd slot d).idr = slot.idr := by
  unfold xrsp_send_csd; split <;> rfl

theorem xrsp_send_idr_keeps_csd (slot : VidSlot) (d : List Nat) :
    (xrsp_send_idr slot d).csd = slot.csd := by
  unfold xrsp_send_idr; split <;> rfl

theorem xrsp_send_csd_lt (slot : VidSlot) (d : List Nat)
    (h : slot.csd.length < STREAM_LEN_CAP) :
    (xrsp_send_csd slot d).csd.length < STREAM_LEN_CAP := by
  unfold xrsp_send_csd; split
  · simpa using by omega
  · exact h

theorem xrsp_send_idr_lt (slot : VidSlot) (d : List Nat)
    (h : slot.idr.length < STREAM_LEN_CAP) :
    (xrsp_send_idr slot d).idr.length < STREAM_LEN_CAP := by
  unfold xrsp_send_idr; split
  · simpa using by omega
  · exact h

theorem runSlotOps_bounds (ops : List SlotOp) (slot : VidSlot)
    (hc : slot.csd.length < STREAM_LEN_CAP) (hi : slot.idr.length < STREAM_LEN_CAP) :
    (runSlotOps slot ops).csd.length < STREAM_LEN_CAP ∧
      (runSlotOps slot ops).idr.length < STREAM_LEN_CAP := by
  induction ops generalizing slot with
  | nil => exact ⟨hc, hi⟩
  | cons op rest ih =>
    cases op with
    | csd d =>
      have h1 : runSlotOps slot (SlotOp.csd d :: rest) =
          runSlotOps (xrsp_send_csd slot d) rest := rfl
      rw [h1]
      exact ih _ (xrsp_send_csd_lt slot d hc)
        (by rw [xrsp_send_csd_keeps_idr]; exact hi)
    | idr d =>
      have h1 : runSlotOps slot (SlotOp.idr d :: rest) =
          runSlotOps (xrsp_send_idr slot d) rest := rfl
      rw [h1]
      exact ih _ (by rw [xrsp_send_idr_keeps_csd]; exact hc)
        (xrsp_send_idr_lt slot d hi)

theorem xrsp_send_video_not_ready (st : VidHost) (a b : Nat)
    (h : ¬(st.pairing_state = .paired ∧ st.ready_to_send_frames = true)) :
    xrsp_send_video st a b = (st, []) := by
  unfold xrsp_send_video; rw [if_pos h]

theorem xrsp_send_video_suppress (st : VidHost) (a b : Nat)
    (hp : st.pairing_state = .paired ∧ st.ready_to_send_frames = true)
    (h0 : a = 0) (hs : st.sent_first_frame = false) :
    xrsp_send_video st a b = (st, []) := by
  unfold xrsp_send_video; rw [if_neg (not_not_intro hp), if_pos ⟨h0, hs⟩]

theorem xrsp_send_video_emits (st : VidHost) (a b : Nat)
    (hp : st.pairing_state = .paired ∧ st.ready_to_send_frames = true)
    (h : ¬(a = 0 ∧ st.sent_first_frame = false)) :
    xrsp_send_video st a b = ({ st with sent_first_frame := true }, [⟨a, b⟩]) := by
  unfold xrsp_send_video; rw [if_neg (not_not_intro hp), if_neg h]

theorem runSendVideo_first_emit (calls : List (Nat × Nat)) :
    ∀ (st : VidHost) (e : SliceEmit), st.sent_first_frame = false →
      (runSendVideo st calls).2.head? = some e → 0 < e.csdLen := by
  induction calls with
  | nil => intro st e hs h; simp [runSendVideo] at h
  | cons c rest ih =>
    intro st e hs h
    have hstep : runSendVideo st (c :: rest) =
        ((runSendVideo (xrsp_send_video st c.1 c.2).1 rest).1,
          (xrsp_send_video st c.1 c.2).2 ++
            (runSendVideo (xrsp_send_video st c.1 c.2).1 rest).2) := rfl
    rw [hstep] at h
    by_cases hp : st.pairing_state = .paired ∧ st.ready_to_send_frames = true
    · by_cases h0 : c.1 = 0
      · rw [xrsp_send_video_suppress st c.1 c.2 hp h0 hs] at h
        simp only [List.nil_append] at h
        exact ih st e hs h
      · rw [xrsp_send_video_emits st c.1 c.2 hp (fun hc => h0 hc.1)] at h
        simp only [List.cons_append, List.nil_append, List.head?_cons,
          Option.some.injEq] at h
        subst h
        exact Nat.pos_of_ne_zero h0
    · rw [xrsp_send_video_not_ready st c.1 c.2 hp] at h
      simp only [List.nil_append] at h
      exact ih st e hs h

theorem openRetryLoop_count (openOk : Nat → Bool) :
    ∀ (fuel i : Nat), ((openRetryLoop openOk i fuel).1.count .openAttempt) ≤ fuel := by
  intro fuel
  induction fuel with
  | zero => intro i; simp [openRetryLoop]
  | succ fuel ih =>
    intro i
    unfold openRetryLoop
    split
    · simp [List.count_cons]
    · simpa [List.count_cons] using ih (i + 1)

theorem openRetryLoop_all_fail (openOk : Nat → Bool) (h : ∀ j, openOk j = false) :
    ∀ (fuel i : Nat), (openRetryLoop openOk i fuel).1 =
      (List.replicate fuel [UsbOp.openAttempt, UsbOp.sleep500ms]).flatten := by
  intro fuel
  induction fuel with
  | zero => intro i; simp [openRetryLoop]
  | succ fuel ih =>
    intro i
    unfold openRetryLoop
    rw [if_neg (by simp [h i])]
    simp [List.replicate_succ, ih (i + 1)]

theorem alignUp0_spec (n : Nat) : alignUp0 n < 4 ∧ (n + alignUp0 n) % 4 = 0 := by
  unfold alignUp0
  dsimp only
  split <;> omega

theorem alignUpAdj_spec (n : Nat) :
    (n + alignUpAdj n) % 4 = 0 ∧ alignUpAdj n ≤ 7 ∧
    (n + alignUpAdj n + 8) % 1024 ≤ 0x3F8 ∧
    (alignUpAdj n = 0 ↔ (n % 4 = 0 ∧ (n + alignUp0 n + 8) % 1024 ≤ 0x3F8)) := by
  obtain ⟨h1, h2⟩ := alignUp0_spec n
  unfold alignUpAdj
  dsimp only
  split <;> omega

theorem rawDataFrame_payload (topic : Nat) (data : List Nat) :
    (rawDataFrame topic data).payload =
      data ++ (if alignUpAdj data.length = 0 then []
               else List.replicate (alignUpAdj data.length - 1) 0xDE ++
                 [alignUpAdj data.length]) := rfl

theorem rawDataFrame_flag (topic : Nat) (data : List Nat) :
    (rawDataFrame topic data).hasAlignmentPadding = true ↔
      alignUpAdj data.length ≠ 0 := by
  show (alignUpAdj data.length != 0) = true ↔ _
  simp [bne_iff_ne]

theorem rawDataFrame_payload_length (topic : Nat) (data : List Nat) :
    (rawDataFrame topic data).payload.length =
      data.length + alignUpAdj data.length := by
  rw [rawDataFrame_payload]
  split
  · simp_all
  · simp only [List.length_append, List.length_replicate, List.length_cons,
      List.length_nil]
    omega

theorem rawDataFrame_byteLen (topic : Nat) (data : List Nat) :
    (rawDataFrame topic data).byteLen =
      data.length + alignUpAdj data.length + 8 := by
  unfold TopicFrame.byteLen
  rw [rawDataFrame_payload_length]
  omega

theorem chunkLoop_flatten :
    ∀ (fuel : Nat) (data : List Nat), data.length ≤ fuel →
      (chunkLoop fuel data).flatten = data := by
  intro fuel
  induction fuel with
  | zero =>
    intro data h
    have hd : data = [] := List.eq_nil_of_length_eq_zero (Nat.le_zero.mp h)
    subst hd
    rfl
  | succ fuel ih =>
    intro data h
    match data with
    | [] => rfl
    | x :: rest =>
      have hstep : chunkLoop (fuel + 1) (x :: rest) =
          (x :: rest).take (min (x :: rest).length XRSP_CHUNK_MAX) ::
            chunkLoop fuel ((x :: rest).drop (min (x :: rest).length XRSP_CHUNK_MAX)) :=
        rfl
      rw [hstep, List.flatten_cons, ih]
      · exact List.take_append_drop _ _
      · have hmin : 1 ≤ min (rest.length + 1) XRSP_CHUNK_MAX := by
          simp only [XRSP_CHUNK_MAX]
          omega
        simp only [List.length_drop, List.length_cons] at *
        omega

theorem chunkLoop_zero (data : List Nat) : chunkLoop 0 data = [] := by
  cases data <;> rfl

theorem chunkSizes_zero (n : Nat) : chunkSizes 0 n = [] := by
  cases n <;> rfl

theorem chunkLoop_sizes_eq :
    ∀ (fuel : Nat) (data : List Nat),
      (chunkLoop fuel data).map List.length = chunkSizes fuel data.length := by
  intro fuel
  induction fuel with
  | zero => intro data; rw [chunkLoop_zero, chunkSizes_zero]; rfl
  | succ fuel ih =>
    intro data
    match data with
    | [] => rfl
    | x :: rest =>
      have hstep : chunkLoop (fuel + 1) (x :: rest) =
          (x :: rest).take (min (x :: rest).length XRSP_CHUNK_MAX) ::
            chunkLoop fuel ((x :: rest).drop (min (x :: rest).length XRSP_CHUNK_MAX)) :=
        rfl
      have hstep2 : chunkSizes (fuel + 1) (rest.length + 1) =
          min (rest.length + 1) XRSP_CHUNK_MAX ::
            chunkSizes fuel (rest.length + 1 - min (rest.length + 1) XRSP_CHUNK_MAX) :=
        rfl
      rw [hstep, List.map_cons, ih, List.length_cons, hstep2,
        List.length_take, List.length_drop]
      congr 1
      · simp only [List.length_cons]
        omega

theorem chunkLoop_bounds :
    ∀ (fuel : Nat) (data : List Nat) (c : List Nat), c ∈ chunkLoop fuel data →
      0 < c.length ∧ c.length ≤ XRSP_CHUNK_MAX := by
  intro fuel
  induction fuel with
  | zero => intro data c hc; simp [chunkLoop] at hc
  | succ fuel ih =>
    intro data c hc
    match data with
    | [] => simp [chunkLoop] at hc
    | x :: rest =>
      have hstep : chunkLoop (fuel + 1) (x :: rest) =
          (x :: rest).take (min (x :: rest).length XRSP_CHUNK_MAX) ::
            chunkLoop fuel ((x :: rest).drop (min (x :: rest).length XRSP_CHUNK_MAX)) :=
        rfl
      rw [hstep, List.mem_cons] at hc
      rcases hc with hc | hc
      · subst hc
        simp only [List.length_take, List.length_cons, XRSP_CHUNK_MAX]
        omega
      · exact ih _ c hc

theorem sliceFold_eq {α : Type} (f : Nat → α) (i k : Nat) (v : α) :
    ((List.range QL_NUM_SLICES).foldl
      (fun g j k2 => if k2 = QL_IDX_SLICE j i then v else g k2) f) k =
      if k = i then v else f k := by
  have h1 : List.range QL_NUM_SLICES = [0] := rfl
  rw [h1]
  show (if k = QL_IDX_SLICE 0 i then v else f k) = if k = i then v else f k
  simp [QL_IDX_SLICE]

theorem allSlicesPresent_eq (st : PipeState) (i : Nat) :
    allSlicesPresent st i = st.needsFlush i := by
  have h1 : List.range QL_NUM_SLICES = [0] := rfl
  rw [allSlicesPresent, h1]
  simp [QL_IDX_SLICE]

theorem QL_IDX_SLICE_zero (i : Nat) : QL_IDX_SLICE 0 i = i := by
  simp [QL_IDX_SLICE]

theorem completeEncode_needsFlush (st : PipeState) (i : Nat) (ts : Int) (k : Nat) :
    (completeEncode st i ts).needsFlush k =
      if k = i then true else st.needsFlush k :=
  sliceFold_eq st.needsFlush i k true

theorem completeEncode_started (st : PipeState) (i : Nat) (ts : Int) (k : Nat) :
    (completeEncode st i ts).streamStartedNs k =
      if k = i then ts else st.streamStartedNs k :=
  sliceFold_eq st.streamStartedNs i k ts

theorem writerScan_go_spec (st : PipeState) (W : Nat → Prop) :
    ∀ (l : List Nat) (acc : Int × Option Nat),
      ((∃ i, W i ∧ acc = (st.streamStartedNs (QL_IDX_SLICE 0 i), some i) ∧
          allSlicesPresent st i = true ∧ acc.1 < INT64_MAX) ∨ acc = (INT64_MAX, none)) →
      (∀ j ∈ l, W j) →
      ((∃ i, W i ∧
          l.foldl (fun acc2 i =>
            if allSlicesPresent st i = true ∧
                st.streamStartedNs (QL_IDX_SLICE 0 i) < acc2.1
            then (st.streamStartedNs (QL_IDX_SLICE 0 i), some i)
            else acc2) acc =
            (st.streamStartedNs (QL_IDX_SLICE 0 i), some i) ∧
          allSlicesPresent st i = true ∧
          (l.foldl (fun acc2 i =>
            if allSlicesPresent st i = true ∧
                st.streamStartedNs (QL_IDX_SLICE 0 i) < acc2.1
            then (st.streamStartedNs (QL_IDX_SLICE 0 i), some i)
            else acc2) acc).1 < INT64_MAX) ∨
        l.foldl (fun acc2 i =>
            if allSlicesPresent st i = true ∧
                st.streamStartedNs (QL_IDX_SLICE 0 i) < acc2.1
            then (st.streamStartedNs (QL_IDX_SLICE 0 i), some i)
            else acc2) acc = (INT64_MAX, none)) ∧
      (l.foldl (fun acc2 i =>
          if allSlicesPresent st i = true ∧
              st.streamStartedNs (QL_IDX_SLICE 0 i) < acc2.1
          then (st.streamStartedNs (QL_IDX_SLICE 0 i), some i)
          else acc2) acc).1 ≤ acc.1 ∧
      (∀ j ∈ l, allSlicesPresent st j = true →
        (l.foldl (fun acc2 i =>
            if allSlicesPresent st i = true ∧
                st.streamStartedNs (QL_IDX_SLICE 0 i) < acc2.1
            then (st.streamStartedNs (QL_IDX_SLICE 0 i), some i)
            else acc2) acc).1 ≤ st.streamStartedNs (QL_IDX_SLICE 0 j)) := by
  intro l
  induction l with
  | nil =>
    intro acc hacc hW
    exact ⟨hacc, le_refl _, by simp⟩
  | cons i l ih =>
    intro acc hacc hW
    rw [List.foldl_cons]
    by_cases hc : allSlicesPresent st i = true ∧
        st.streamStartedNs (QL_IDX_SLICE 0 i) < acc.1
    · rw [if_pos hc]
      have haccMax : acc.1 ≤ INT64_MAX := by
        rcases hacc with ⟨i0, _, _, _, hlt⟩ | heq
        · exact le_of_lt hlt
        · rw [heq]
      have hacc1 : (∃ i2, W i2 ∧
          ((st.streamStartedNs (QL_IDX_SLICE 0 i), some i) : Int × Option Nat) =
            (st.streamStartedNs (QL_IDX_SLICE 0 i2), some i2) ∧
          allSlicesPresent st i2 = true ∧
          ((st.streamStartedNs (QL_IDX_SLICE 0 i), some i) : Int × Option Nat).1
            < INT64_MAX) ∨
          ((st.streamStartedNs (QL_IDX_SLICE 0 i), some i) : Int × Option Nat) =
            (INT64_MAX, none) :=
        Or.inl ⟨i, hW i (List.mem_cons_self i l), rfl, hc.1,
          lt_of_lt_of_le hc.2 haccMax⟩
      obtain ⟨hinv, hle, hmin⟩ := ih _ hacc1 (fun j hj => hW j (List.mem_cons_of_mem i hj))
      refine ⟨hinv, le_trans hle (le_of_lt hc.2), ?_⟩
      intro j hj hcj
      rcases List.mem_cons.mp hj with hj | hj
      · subst hj
        exact hle
      · exact hmin j hj hcj
    · rw [if_neg hc]
      obtain ⟨hinv, hle, hmin⟩ := ih acc hacc (fun j hj => hW j (List.mem_cons_of_mem i hj))
      refine ⟨hinv, hle, ?_⟩
      intro j hj hcj
      rcases List.mem_cons.mp hj with hj | hj
      · subst hj
        have hge : acc.1 ≤ st.streamStartedNs (QL_IDX_SLICE 0 j) := by
          by_contra hlt
          exact hc ⟨hcj, by omega⟩
        exact le_trans hle hge
      · exact hmin j hj hcj

theorem writerScan_spec (st : PipeState) (ns : Int) (i : Nat)
    (h : writerScan st = (ns, some i)) :
    i < QL_SWAPCHAIN_DEPTH ∧ allSlicesPresent st i = true ∧
    ns = st.streamStartedNs (QL_IDX_SLICE 0 i) ∧ ns < INT64_MAX ∧
    (∀ j, j < QL_SWAPCHAIN_DEPTH → allSlicesPresent st j = true →
      ns ≤ st.streamStartedNs (QL_IDX_SLICE 0 j)) := by
  have hgo := writerScan_go_spec st (fun k => k < QL_SWAPCHAIN_DEPTH)
    (List.range QL_SWAPCHAIN_DEPTH) (INT64_MAX, none)
    (Or.inr rfl) (fun j hj => List.mem_range.mp hj)
  rw [writerScan] at h
  rw [h] at hgo
  obtain ⟨hinv, _, hmin⟩ := hgo
  rcases hinv with ⟨i0, hW, heq, hc, hlt⟩ | heq
  · have hns : ns = st.streamStartedNs (QL_IDX_SLICE 0 i0) ∧ i = i0 := by
      have h1 := congrArg Prod.fst heq
      have h2 := congrArg Prod.snd heq
      simp only at h1 h2
      exact ⟨h1, Option.some.inj h2⟩
    obtain ⟨hns1, hns2⟩ := hns
    subst hns2
    refine ⟨hW, hc, hns1, by simpa using hlt, ?_⟩
    intro j hj hcj
    simpa using hmin j (List.mem_range.mpr hj) hcj
  · exact absurd (congrArg Prod.snd heq) (by simp)

theorem evsOk_wakeup (b : Int) (rest : List PipeEv) :
    evsOk b (.wakeup :: rest) = evsOk b rest := rfl

theorem pipeRun_wakeup (st : PipeState) (rest : List PipeEv) :
    pipeRun st (.wakeup :: rest) =
      (match writerWake st with
        | (st1, none) => pipeRun st1 rest
        | (st1, some ns) => ((pipeRun st1 rest).1, ns :: (pipeRun st1 rest).2)) := rfl

theorem pipeRun_mono (evs : List PipeEv) :
    ∀ (st : PipeState) (b lo : Int),
      (∀ i, i < QL_SWAPCHAIN_DEPTH → st.needsFlush i = true →
        lo < st.streamStartedNs i ∧ st.streamStartedNs i ≤ b) →
      (∀ i j, i < QL_SWAPCHAIN_DEPTH → j < QL_SWAPCHAIN_DEPTH → i ≠ j →
        st.needsFlush i = true → st.needsFlush j = true →
        st.streamStartedNs i ≠ st.streamStartedNs j) →
      lo ≤ b →
      evsOk b evs →
      List.Chain' (· < ·) (pipeRun st evs).2 ∧
        (∀ x ∈ (pipeRun st evs).2, lo < x) := by
  induction evs with
  | nil =>
    intro st b lo hpend hdist hlob hok
    simp [pipeRun]
  | cons ev rest ih =>
    intro st b lo hpend hdist hlob hok
    cases ev with
    | complete i ts =>
      obtain ⟨hbts, hi3, htsMax, hok2⟩ := hok
      have hstep : pipeRun st (PipeEv.complete i ts :: rest) =
          pipeRun (completeEncode st i ts) rest := rfl
      rw [hstep]
      apply ih (completeEncode st i ts) ts lo ?_ ?_ (by omega) hok2
      · intro k hk hf
        rw [completeEncode_needsFlush] at hf
        rw [completeEncode_started]
        by_cases hki : k = i
        · rw [if_pos hki]
          constructor
          · omega
          · exact le_refl _
        · rw [if_neg hki] at hf
          rw [if_neg hki]
          obtain ⟨h1, h2⟩ := hpend k hk hf
          exact ⟨h1, by omega⟩
      · intro k l hk hl hkl hfk hfl
        rw [completeEncode_needsFlush] at hfk hfl
        rw [completeEncode_started, completeEncode_started]
        by_cases hki : k = i
        · rw [if_pos hki]
          have hli : ¬ l = i := fun h => hkl (hki.trans h.symm)
          rw [if_neg hli] at hfl ⊢
          have := (hpend l hl hfl).2
          omega
        · rw [if_neg hki] at hfk ⊢
          by_cases hli : l = i
          · rw [if_pos hli]
            have := (hpend k hk hfk).2
            omega
          · rw [if_neg hli] at hfl ⊢
            exact hdist k l hk hl hkl hfk hfl
    | wakeup =>
      rw [evsOk_wakeup] at hok
      rw [pipeRun_wakeup]
      cases hscan : writerScan st with
      | mk ns opt =>
        cases opt with
        | none =>
          have hwake : writerWake st = (st, none) := by
            rw [writerWake, hscan]
          rw [hwake]
          exact ih st b lo hpend hdist hlob hok
        | some i =>
          obtain ⟨hi3, hready, hnse, hnsMax, hmin⟩ := writerScan_spec st ns i hscan
          rw [allSlicesPresent_eq] at hready
          rw [QL_IDX_SLICE_zero] at hnse
          have hpendI := hpend i hi3 hready
          have hwake : writerWake st = ({ st with
              needsFlush := (List.range QL_NUM_SLICES).foldl
                (fun f j k => if k = QL_IDX_SLICE j i then false else f k)
                st.needsFlush }, some ns) := by
            rw [writerWake, hscan]
          rw [hwake]
          have htail := ih ({ st with
              needsFlush := (List.range QL_NUM_SLICES).foldl
                (fun f j k => if k = QL_IDX_SLICE j i then false else f k)
                st.needsFlush }) b ns ?_ ?_ (by omega) hok
          · obtain ⟨hchain, hgt⟩ := htail
            constructor
            · rw [List.chain'_cons']
              refine ⟨?_, hchain⟩
              intro y hy
              exact hgt y (by
                cases hmem : (pipeRun _ rest).2 with
                | nil => rw [hmem] at hy; simp at hy
                | cons z zs =>
                  rw [hmem] at hy
                  simp only [List.head?_cons, Option.mem_def, Option.some.injEq] at hy
                  exact List.mem_cons.mpr (Or.inl hy.symm))
            · intro x hx
              rcases List.mem_cons.mp hx with hx | hx
              · subst hx
                have := hpendI.1
                omega
              · have h1 := hgt x hx
                have h2 := hpendI.1
                omega
          · intro k hk hf
            show ns < st.streamStartedNs k ∧ st.streamStartedNs k ≤ b
            have hf2 : (if k = i then false else st.needsFlush k) = true := by
              rw [← sliceFold_eq st.needsFlush i k false]
              exact hf
            by_cases hki : k = i
            · rw [if_pos hki] at hf2
              exact absurd hf2 (by decide)
            · rw [if_neg hki] at hf2
              have hb := hpend k hk hf2
              have hge : ns ≤ st.streamStartedNs k := by
                have := hmin k hk (by rw [allSlicesPresent_eq]; exact hf2)
                rwa [QL_IDX_SLICE_zero] at this
              have hne : st.streamStartedNs i ≠ st.streamStartedNs k :=
                hdist i k hi3 hk (fun h => hki h.symm) hready hf2
              refine ⟨?_, hb.2⟩
              omega
          · intro k l hk hl hkl hfk hfl
            have hf2k : (if k = i then false else st.needsFlush k) = true := by
              rw [← sliceFold_eq st.needsFlush i k false]; exact hfk
            have hf2l : (if l = i then false else st.needsFlush l) = true := by
              rw [← sliceFold_eq st.needsFlush i l false]; exact hfl
            by_cases hki : k = i
            · rw [if_pos hki] at hf2k
              exact absurd hf2k (by decide)
            · by_cases hli : l = i
              · rw [if_pos hli] at hf2l
                exact absurd hf2l (by decide)
              · rw [if_neg hki] at hf2k
                rw [if_neg hli] at hf2l
                exact hdist k l hk hl hkl hf2k hf2l

/-! ## Claim theorems -/

/-- C1: For every inbound HOSTINFO_ADV handshake message, the
pairing-state step behaves exactly as the table: in WAIT_FIRST only
PAIRING_ACK changes the state (to WAIT_SECOND); in WAIT_SECOND or
PAIRING, INVITE sets the state to PAIRING and PAIRING_ACK sets it to
PAIRED; every other handshake message type (including ECHO and BYE in
any state) leaves the state unchanged; and the state never regresses
under any message. -/
theorem claim_C1 :
    (∀ m, xrsp_handle_hostinfo_adv_state .waitFirst m =
      if m = .pairingAck then .waitSecond else .waitFirst) ∧
    (∀ s, (s = .waitSecond ∨ s = .pairing) →
      xrsp_handle_hostinfo_adv_state s .invite = .pairing ∧
      xrsp_handle_hostinfo_adv_state s .pairingAck = .paired ∧
      xrsp_handle_hostinfo_adv_state s .ack = s ∧
      xrsp_handle_hostinfo_adv_state s .codeGenerationAck = s ∧
      xrsp_handle_hostinfo_adv_state s .bye = s ∧
      xrsp_handle_hostinfo_adv_state s .other = s) ∧
    (∀ s, xrsp_handle_hostinfo_adv_state s .echo = s) ∧
    (∀ m, xrsp_handle_hostinfo_adv_state .paired m = .paired) ∧
    (∀ s m, s.rank ≤ (xrsp_handle_hostinfo_adv_state s m).rank) := by
  refine ⟨by decide, ?_, by decide, by decide, by decide⟩
  intro s hs
  rcases hs with h | h <;> subst h <;> exact ⟨rfl, rfl, rfl, rfl, rfl, rfl⟩

/-- Witness for C1 at the concrete state WAIT_SECOND. -/
theorem claim_C1_witness :
    (PairingState.waitSecond = .waitSecond ∨ PairingState.waitSecond = .pairing) ∧
    (xrsp_handle_hostinfo_adv_state .waitSecond .invite = .pairing ∧
      xrsp_handle_hostinfo_adv_state .waitSecond .pairingAck = .paired ∧
      xrsp_handle_hostinfo_adv_state .waitSecond .ack = .waitSecond ∧
      xrsp_handle_hostinfo_adv_state .waitSecond .codeGenerationAck = .waitSecond ∧
      xrsp_handle_hostinfo_adv_state .waitSecond .bye = .waitSecond ∧
      xrsp_handle_hostinfo_adv_state .waitSecond .other = .waitSecond) :=
  ⟨Or.inl rfl, claim_C1.2.1 .waitSecond (Or.inl rfl)⟩

/-- C10: The per-slot CSD and IDR stream lengths always stay strictly
below 0x1000000: an append succeeds only when the resulting length stays
below the bound, otherwise the slot is left completely unchanged; hence
any sequence of encoder appends starting from an empty slot keeps both
lengths below the bound. -/
theorem claim_C10 :
    (∀ (slot : VidSlot) (d : List Nat), slot.csd.length < STREAM_LEN_CAP →
      (xrsp_send_csd slot d).csd.length < STREAM_LEN_CAP) ∧
    (∀ (slot : VidSlot) (d : List Nat), slot.idr.length < STREAM_LEN_CAP →
      (xrsp_send_idr slot d).idr.length < STREAM_LEN_CAP) ∧
    (∀ (slot : VidSlot) (d : List Nat), ¬ slot.csd.length + d.length < STREAM_LEN_CAP →
      xrsp_send_csd slot d = slot) ∧
    (∀ (slot : VidSlot) (d : List Nat), ¬ slot.idr.length + d.length < STREAM_LEN_CAP →
      xrsp_send_idr slot d = slot) ∧
    (∀ ops : List SlotOp, (runSlotOps ⟨[], []⟩ ops).csd.length < STREAM_LEN_CAP ∧
      (runSlotOps ⟨[], []⟩ ops).idr.length < STREAM_LEN_CAP) := by
  refine ⟨xrsp_send_csd_lt, xrsp_send_idr_lt, ?_, ?_, ?_⟩
  · intro slot d h; unfold xrsp_send_csd; rw [if_neg h]
  · intro slot d h; unfold xrsp_send_idr; rw [if_neg h]
  · intro ops
    exact runSlotOps_bounds ops ⟨[], []⟩ (by simp [STREAM_LEN_CAP]) (by simp [STREAM_LEN_CAP])

/-- Witness for C10 at a concrete small append: an empty slot accepts a
3-byte CSD append and its length stays below the bound. -/
theorem claim_C10_witness :
    (([] : List Nat)).length < STREAM_LEN_CAP ∧
    (xrsp_send_csd ⟨[], []⟩ [1, 2, 3]).csd.length < STREAM_LEN_CAP :=
  ⟨by decide, claim_C10.1 ⟨[], []⟩ [1, 2, 3] (by decide)⟩

/-- C4 counterexample: in the fake-clock scenario (PONG with org = 1000,
recv = 1010, xmt = 1030, received and handled at t = 1040, prior
ns_offset 0) the code yields ns_offset = -20, not the 0 computed by the
formula ((recv - org) + (xmt - t_recv)) / 2 the claim states. -/
theorem claim_C4_counterexample :
    (xrsp_handle_echo_pong ⟨0, 0, 0, 0, 0⟩ 1000 1010 1030 0 1040 1040).ns_offset = -20 ∧
    specNsOffsetSample 1000 1010 1030 1040 = 0 ∧
    (xrsp_handle_echo_pong ⟨0, 0, 0, 0, 0⟩ 1000 1010 1030 0 1040 1040).ns_offset ≠ 0 := by
  refine ⟨by decide, by decide, by decide⟩

/-- C4 (amended): the PONG handler ignores the echoed org and offset
fields entirely; it computes the new sample as
((recv - t_now) + (xmt - t_recv)) >> 1, where t_now is a fresh clock
read stored into echo_req_sent_ns, and folds it into ns_offset by a
two-sample running mean (first sample taken as-is); in the fake-clock
scenario handled at t_recv = t_now = 1040 the resulting ns_offset
is -20. -/
theorem claim_C4 :
    (∀ (st : EchoState) (org org2 recv xmt off off2 pr now : Int),
      xrsp_handle_echo_pong st org recv xmt off pr now =
        xrsp_handle_echo_pong st org2 recv xmt off2 pr now) ∧
    (∀ (st : EchoState) (org recv xmt off pr now : Int),
      (xrsp_handle_echo_pong st org recv xmt off pr now).ns_offset =
        (if st.ns_offset = 0 then Int.fdiv ((recv - now) + (xmt - pr)) 2
         else Int.tdiv (st.ns_offset + Int.fdiv ((recv - now) + (xmt - pr)) 2) 2)) ∧
    (xrsp_handle_echo_pong ⟨0, 0, 0, 0, 0⟩ 1000 1010 1030 0 1040 1040).ns_offset = -20 := by
  refine ⟨fun st org org2 recv xmt off off2 pr now => rfl, ?_, by decide⟩
  intro st org recv xmt off pr now
  unfold xrsp_handle_echo_pong
  dsimp only
  split <;> rfl

/-- C2: nothing is sent while sent_first_frame is false and the frame
carries no CSD (and sent_first_frame stays false); over any sequence of
send calls starting with sent_first_frame false, the first slice message
actually emitted carries CSD; and the writer re-arm block clears
sent_first_frame while arming the pipeline. -/
theorem claim_C2 :
    (∀ (st : VidHost) (csdLen vidLen : Nat), st.sent_first_frame = false → csdLen = 0 →
      xrsp_send_video st csdLen vidLen = (st, [])) ∧
    (∀ (st : VidHost) (calls : List (Nat × Nat)) (e : SliceEmit),
      st.sent_first_frame = false →
      (runSendVideo st calls).2.head? = some e → 0 < e.csdLen) ∧
    (∀ st : VidHost, (rearmPipeline st).sent_first_frame = false ∧
      (rearmPipeline st).ready_to_send_frames = true) := by
  refine ⟨?_, ?_, fun st => ⟨rfl, rfl⟩⟩
  · intro st csdLen vidLen hs h0
    by_cases hp : st.pairing_state = .paired ∧ st.ready_to_send_frames = true
    · exact xrsp_send_video_suppress st csdLen vidLen hp h0 hs
    · exact xrsp_send_video_not_ready st csdLen vidLen hp
  · intro st calls e hs h
    exact runSendVideo_first_emit calls st e hs h

/-- Witness for C2: a paired, armed host with sent_first_frame false
suppresses a CSD-less frame, and over the call list
[(0, 5), (3, 7)] the first emitted message is the one with csd_len 3. -/
theorem claim_C2_witness :
    (VidHost.mk .paired true false).sent_first_frame = false ∧
    xrsp_send_video ⟨.paired, true, false⟩ 0 5 = (⟨.paired, true, false⟩, []) ∧
    (runSendVideo ⟨.paired, true, false⟩ [(0, 5), (3, 7)]).2.head? =
      some ⟨3, 7⟩ ∧
    0 < (SliceEmit.mk 3 7).csdLen :=
  ⟨rfl, claim_C2.1 ⟨.paired, true, false⟩ 0 5 rfl rfl, by decide,
    claim_C2.2.1 ⟨.paired, true, false⟩ [(0, 5), (3, 7)] ⟨3, 7⟩ rfl (by decide)⟩

set_option maxRecDepth 40000 in
/-- C5 counterexample: for a 1012-byte payload the pre-filler extra
padding triggers, so has_alignment_padding is set even though 1012 is a
multiple of 4, and the final payload byte is 4, outside {1,2,3}. -/
theorem claim_C5_counterexample :
    (rawDataFrame 9 (List.replicate 1012 0)).hasAlignmentPadding = true ∧
    (1012 : Nat) % 4 = 0 ∧
    (rawDataFrame 9 (List.replicate 1012 0)).payload.getLast? = some 4 ∧
    ¬ ((4 : Nat) = 1 ∨ (4 : Nat) = 2 ∨ (4 : Nat) = 3) := by
  refine ⟨by decide, by decide, by decide, by decide⟩

/-- C5 (amended): when has_alignment_padding is set the final payload
byte equals the pad length, which lies in [1,7] (1..3 from 4-byte
alignment alone, 4..7 when the pre-filler extra padding is folded in),
the padded payload length minus that value equals the original n, and
all pad bytes before the final one are 0xDE; has_alignment_padding is
set exactly when n is not a multiple of 4 or the frame would end within
the last 8 bytes before a 1024-byte boundary. -/
theorem claim_C5 :
    ∀ (topic : Nat) (data : List Nat),
      ((rawDataFrame topic data).hasAlignmentPadding = true →
        (rawDataFrame topic data).payload =
          (data ++ List.replicate (alignUpAdj data.length - 1) 0xDE) ++
            [alignUpAdj data.length] ∧
        (rawDataFrame topic data).payload.getLast? = some (alignUpAdj data.length) ∧
        1 ≤ alignUpAdj data.length ∧ alignUpAdj data.length ≤ 7 ∧
        (rawDataFrame topic data).payload.length =
          data.length + alignUpAdj data.length) ∧
      ((rawDataFrame topic data).hasAlignmentPadding = false →
        (rawDataFrame topic data).payload = data) ∧
      ((rawDataFrame topic data).hasAlignmentPadding = true ↔
        (data.length % 4 ≠ 0 ∨
          0x3F8 < (data.length + alignUp0 data.length + 8) % 1024)) := by
  intro topic data
  have hspec := alignUpAdj_spec data.length
  have hflag := rawDataFrame_flag topic data
  refine ⟨?_, ?_, ?_⟩
  · intro h
    have ha : alignUpAdj data.length ≠ 0 := hflag.mp h
    have hpay : (rawDataFrame topic data).payload =
        (data ++ List.replicate (alignUpAdj data.length - 1) 0xDE) ++
          [alignUpAdj data.length] := by
      rw [rawDataFrame_payload, if_neg ha, ← List.append_assoc]
    refine ⟨hpay, ?_, by omega, hspec.2.1, rawDataFrame_payload_length topic data⟩
    rw [hpay, List.getLast?_concat]
  · intro h
    have ha : alignUpAdj data.length = 0 := by
      by_contra hne
      rw [hflag.mpr hne] at h
      exact absurd h (by decide)
    rw [rawDataFrame_payload, if_pos ha, List.append_nil]
  · rw [hflag]
    have h4 := hspec.2.2.2
    omega

/-- Witness for C5 at a 1-byte payload, which pads with 2 bytes of 0xDE
and a final pad byte of 3. -/
theorem claim_C5_witness :
    (rawDataFrame 3 [1]).hasAlignmentPadding = true ∧
    ((rawDataFrame 3 [1]).payload = ([1] ++ List.replicate 2 0xDE) ++ [3] ∧
      (rawDataFrame 3 [1]).payload.getLast? = some 3 ∧
      1 ≤ (3 : Nat) ∧ (3 : Nat) ≤ 7 ∧
      (rawDataFrame 3 [1]).payload.length = 1 + 3) :=
  ⟨by decide, (claim_C5 3 [1]).1 (by decide)⟩

set_option maxRecDepth 40000 in
/-- C6 counterexample: for an 8-byte payload (16-byte frame) the filler
frame has num_words = 0xFB, not the 0xF5 the claim states. -/
theorem claim_C6_counterexample :
    (xrsp_send_to_topic_raw 3 (List.replicate 8 0)).map TopicFrame.numWords =
      [3, 0xFB] ∧ (0xFB : Nat) ≠ 0xF5 := by
  refine ⟨by decide, by decide⟩

set_option maxRecDepth 40000 in
/-- C6 (amended): after emitting a data frame, when the gap to the next
1024-byte boundary is at least 8 bytes (it is always below 1024), the
framer appends exactly one topic-0 filler frame without padding whose
total size is exactly the gap, making the emitted output a multiple of
1024 bytes; an 8-byte payload yields a topic-0 filler frame with
num_words = 0xFB and a 1024-byte total. -/
theorem claim_C6 :
    (∀ (topic : Nat) (data : List Nat),
      (8 ≤ gapToBoundary (rawDataFrame topic data).byteLen →
        xrsp_send_to_topic_raw topic data =
          [rawDataFrame topic data,
            { hasAlignmentPadding := false
              topic := 0
              numWords := (gapToBoundary (rawDataFrame topic data).byteLen - 8) / 4 + 1
              payload := List.replicate
                (gapToBoundary (rawDataFrame topic data).byteLen - 8) 0 }] ∧
        framesLen (xrsp_send_to_topic_raw topic data) % 1024 = 0) ∧
      (gapToBoundary (rawDataFrame topic data).byteLen < 8 →
        xrsp_send_to_topic_raw topic data = [rawDataFrame topic data])) ∧
    (xrsp_send_to_topic_raw 3 (List.replicate 8 0)).map TopicFrame.topic = [3, 0] ∧
    (xrsp_send_to_topic_raw 3 (List.replicate 8 0)).map TopicFrame.numWords =
      [3, 0xFB] ∧
    framesLen (xrsp_send_to_topic_raw 3 (List.replicate 8 0)) = 1024 := by
  refine ⟨?_, by decide, by decide, by decide⟩
  intro topic data
  have hspec := alignUpAdj_spec data.length
  have hb := rawDataFrame_byteLen topic data
  by_cases h0 : (data.length + alignUpAdj data.length + 8) % 1024 = 0
  · have hgap : gapToBoundary (rawDataFrame topic data).byteLen = 0 := by
      rw [hb]; unfold gapToBoundary; rw [if_pos h0]
    refine ⟨fun h8 => absurd h8 (by omega), fun _ => ?_⟩
    unfold xrsp_send_to_topic_raw
    dsimp only
    rw [if_neg ?hcond]
    case hcond => rintro ⟨h1, h2⟩; omega
  · have hr : (data.length + alignUpAdj data.length + 8) % 1024 ≤ 0x3F8 :=
      hspec.2.2.1
    set g := gapToBoundary (rawDataFrame topic data).byteLen with hgdef
    have hgap : g = 1024 - (data.length + alignUpAdj data.length + 8) % 1024 := by
      rw [hgdef, hb]; unfold gapToBoundary; rw [if_neg h0]
    refine ⟨fun _ => ?_, fun hlt => absurd hlt (by omega)⟩
    have hframes : xrsp_send_to_topic_raw topic data =
        [rawDataFrame topic data,
          { hasAlignmentPadding := false
            topic := 0
            numWords := (g - 8) / 4 + 1
            payload := List.replicate (g - 8) 0 }] := by
      unfold xrsp_send_to_topic_raw
      dsimp only
      rw [if_pos ?hcond2]
      case hcond2 => constructor <;> omega
      have htn : (0x400 - ((data.length + alignUpAdj data.length + 8 : Nat) : Int)
          % 0x400 - 8).toNat = g - 8 := by
        omega
      rw [htn]
    refine ⟨hframes, ?_⟩
    rw [hframes]
    simp only [framesLen, List.map_cons, List.map_nil, List.sum_cons,
      List.sum_nil, TopicFrame.byteLen, List.length_replicate]
    rw [rawDataFrame_payload_length]
    omega

/-- Witness for C6 at a 1-byte payload: the 12-byte data frame is
followed by a 1012-byte filler. -/
theorem claim_C6_witness :
    8 ≤ gapToBoundary (rawDataFrame 3 [1]).byteLen ∧
    xrsp_send_to_topic_raw 3 [1] =
      [rawDataFrame 3 [1],
        { hasAlignmentPadding := false
          topic := 0
          numWords := (gapToBoundary (rawDataFrame 3 [1]).byteLen - 8) / 4 + 1
          payload := List.replicate (gapToBoundary (rawDataFrame 3 [1]).byteLen - 8) 0 }] ∧
    framesLen (xrsp_send_to_topic_raw 3 [1]) % 1024 = 0 :=
  ⟨by decide, ((claim_C6.1 3 [1]).1 (by decide)).1, ((claim_C6.1 3 [1]).1 (by decide)).2⟩

/-- C7: a positive-size payload is sliced into consecutive chunks of at
most 0x3FFF8 bytes whose concatenation is the original payload, each
emitted as topic frames strictly between the single lock acquisition and
the single release of usb_mutex; a 0x80000-byte payload yields exactly
the chunk sizes 0x3FFF8, 0x3FFF8 and 0x0010. -/
theorem claim_C7 :
    (∀ (topic : Nat) (data : List Nat), 0 < data.length →
      xrsp_send_to_topic topic data =
        SendEvent.lock ::
          (((chunkLoop data.length data).map
            (fun c => (xrsp_send_to_topic_raw topic c).map SendEvent.frame)).flatten
          ++ [SendEvent.unlock]) ∧
      (chunkLoop data.length data).flatten = data ∧
      (∀ c ∈ chunkLoop data.length data, 0 < c.length ∧ c.length ≤ XRSP_CHUNK_MAX) ∧
      (∀ e ∈ ((chunkLoop data.length data).map
            (fun c => (xrsp_send_to_topic_raw topic c).map SendEvent.frame)).flatten,
        ∃ f, e = SendEvent.frame f)) ∧
    chunkSizes 0x80000 0x80000 = [0x3FFF8, 0x3FFF8, 0x10] ∧
    (chunkLoop 0x80000 (List.replicate 0x80000 (0 : Nat))).map List.length =
      [0x3FFF8, 0x3FFF8, 0x10] := by
  refine ⟨?_, by decide, ?_⟩
  · intro topic data h
    refine ⟨?_, chunkLoop_flatten data.length data le_rfl,
      fun c hc => chunkLoop_bounds data.length data c hc, ?_⟩
    · unfold xrsp_send_to_topic
      rw [if_neg (by omega)]
    · intro e he
      rw [List.mem_flatten] at he
      obtain ⟨l, hl, hel⟩ := he
      rw [List.mem_map] at hl
      obtain ⟨c, hc, rfl⟩ := hl
      rw [List.mem_map] at hel
      obtain ⟨f, hf, rfl⟩ := hel
      exact ⟨f, rfl⟩
  · rw [chunkLoop_sizes_eq, List.length_replicate]
    decide

/-- Witness for C7 at a 2-byte payload. -/
theorem claim_C7_witness :
    0 < ([1, 2] : List Nat).length ∧
    (chunkLoop ([1, 2] : List Nat).length [1, 2]).flatten = [1, 2] :=
  ⟨by decide, (claim_C7.1 3 [1, 2] (by decide)).2.1⟩

/-- C9 as stated is violated by the code: `xrsp_send_to_topic` locks
usb_mutex and then returns without unlocking on the data_size <= 0 path
(and the null-host check runs only after the lock was taken through that
very pointer).  At the failing input the whole trace is the lock
acquisition with no release. -/
theorem claim_C9_lock_leak :
    xrsp_send_to_topic 3 [] = [SendEvent.lock] ∧
    SendEvent.unlock ∉ xrsp_send_to_topic 3 [] := by
  refine ⟨by decide, by decide⟩

/-- C8 counterexample: the reset path of `ql_xrsp_usb_init` issues the
device-level reset first and closes the handle afterwards - and when the
reset reports NOT_FOUND it never closes the handle at all - contradicting
the claimed close-then-reset sequence. -/
theorem claim_C8_counterexample :
    (ql_xrsp_usb_reset_path LIBUSB_ERROR_NOT_FOUND (fun _ => true)).1 =
      [UsbOp.reset, UsbOp.openAttempt] ∧
    UsbOp.close ∉ (ql_xrsp_usb_reset_path LIBUSB_ERROR_NOT_FOUND (fun _ => true)).1 ∧
    (ql_xrsp_usb_reset_path 0 (fun _ => true)).1 =
      [UsbOp.reset, UsbOp.close, UsbOp.openAttempt] := by
  refine ⟨by decide, by decide, by decide⟩

/-- C8 (amended): a bulk send failing with NO_DEVICE or TIMEOUT on a
valid transport marks it invalid and forces WAIT_FIRST, leaving all
other host state unchanged; the subsequent reset path issues a
device-level reset and, when the reset succeeds, closes the handle, then
retries opening the device up to ten times, sleeping 500 ms after each
failed attempt. -/
theorem claim_C8 :
    (∀ (α : Type) (st : UsbHost α) (r : Int) (sentLen : Nat),
      st.usb_valid = true →
      (r = LIBUSB_ERROR_NO_DEVICE ∨ r = LIBUSB_ERROR_TIMEOUT) →
      xrsp_send_usb st r sentLen =
        { usb_valid := false, pairing_state := .waitFirst, rest := st.rest }) ∧
    (∀ openOk : Nat → Bool,
      (ql_xrsp_usb_reset_path 0 openOk).1 =
        .reset :: .close :: (openRetryLoop openOk 0 10).1) ∧
    (∀ (openOk : Nat → Bool) (fuel i : Nat),
      ((openRetryLoop openOk i fuel).1.count .openAttempt) ≤ fuel) ∧
    (∀ openOk : Nat → Bool, (∀ j, openOk j = false) →
      (openRetryLoop openOk 0 10).1 =
        (List.replicate 10 [UsbOp.openAttempt, UsbOp.sleep500ms]).flatten) ∧
    (∀ (openOk : Nat → Bool) (fuel i : Nat), openOk i = true →
      openRetryLoop openOk i (fuel + 1) = ([.openAttempt], true)) := by
  refine ⟨?_, ?_, fun openOk fuel i => openRetryLoop_count openOk fuel i, ?_, ?_⟩
  · intro α st r sentLen hv hr
    unfold xrsp_send_usb
    rw [if_neg (by rw [hv]; exact Bool.true_eq_false ▸ (by simp))]
    rw [if_pos (Or.inl (by rcases hr with h | h <;> subst h <;> decide)),
      if_pos hr]
  · intro openOk
    rfl
  · intro openOk h
    exact openRetryLoop_all_fail openOk h 10 0
  · intro openOk fuel i h
    unfold openRetryLoop
    rw [if_pos h]

/-- Witness for C8 at a concrete TIMEOUT failure and an all-failing
reopen oracle. -/
theorem claim_C8_witness :
    (UsbHost.mk true .paired (0 : Nat)).usb_valid = true ∧
    ((-7 : Int) = LIBUSB_ERROR_NO_DEVICE ∨ (-7 : Int) = LIBUSB_ERROR_TIMEOUT) ∧
    xrsp_send_usb ⟨true, .paired, (0 : Nat)⟩ (-7) 0 =
      { usb_valid := false, pairing_state := .waitFirst, rest := (0 : Nat) } ∧
    (openRetryLoop (fun _ => false) 0 10).1 =
      (List.replicate 10 [UsbOp.openAttempt, UsbOp.sleep500ms]).flatten :=
  ⟨rfl, Or.inr rfl,
    claim_C8.1 Nat ⟨true, .paired, 0⟩ (-7) 0 rfl (Or.inr rfl),
    claim_C8.2.2.2.1 (fun _ => false) (fun _ => rfl)⟩

/-- C3: the writer emits a frame only for an index whose every slice
slot has needs_flush set, and among the ready indices it picks the one
with the smallest slot-0 stream_started_ns; consequently, over any
interleaving of completed encodes with strictly increasing
stream_started_ns and writer wakeups, the emitted stamps are strictly
increasing, that is the frames go out in completion order. -/
theorem claim_C3 :
    (∀ (st : PipeState) (ns : Int) (i : Nat),
      writerScan st = (ns, some i) →
      i < QL_SWAPCHAIN_DEPTH ∧ allSlicesPresent st i = true ∧
      ns = st.streamStartedNs (QL_IDX_SLICE 0 i) ∧
      (∀ j, j < QL_SWAPCHAIN_DEPTH → allSlicesPresent st j = true →
        ns ≤ st.streamStartedNs (QL_IDX_SLICE 0 j))) ∧
    (∀ (evs : List PipeEv) (b : Int), evsOk b evs →
      List.Chain' (· < ·) (pipeRun initPipeState evs).2) := by
  constructor
  · intro st ns i h
    obtain ⟨h1, h2, h3, _, h5⟩ := writerScan_spec st ns i h
    exact ⟨h1, h2, h3, h5⟩
  · intro evs b hok
    refine (pipeRun_mono evs initPipeState b b ?_ ?_ le_rfl hok).1
    · intro i hi hf
      exact absurd hf (by simp [initPipeState])
    · intro i j hi hj hij hf
      exact absurd hf (by simp [initPipeState])

/-- Witness for C3: two completions with stamps 5 and 7 followed by two
wakeups emit [5, 7], a strictly increasing sequence. -/
theorem claim_C3_witness :
    evsOk 0 [PipeEv.complete 0 5, PipeEv.complete 1 7, PipeEv.wakeup, PipeEv.wakeup] ∧
    (pipeRun initPipeState
      [PipeEv.complete 0 5, PipeEv.complete 1 7, PipeEv.wakeup, PipeEv.wakeup]).2 =
      [5, 7] ∧
    List.Chain' (· < ·) (pipeRun initPipeState
      [PipeEv.complete 0 5, PipeEv.complete 1 7, PipeEv.wakeup, PipeEv.wakeup]).2 := by
  have hok : evsOk 0
      [PipeEv.complete 0 5, PipeEv.complete 1 7, PipeEv.wakeup, PipeEv.wakeup] := by
    simp [evsOk, QL_SWAPCHAIN_DEPTH, INT64_MAX]
  exact ⟨hok, by decide, claim_C3.2 _ 0 hok⟩

end XRSP

